import Mathlib

/-!
Basketball-court booking system: a shallow embedding

This file embeds the booking logic of the BASKETBALL repository in Lean 4 and
proves (or refutes) the specification claims about it.

The repository contains several parallel implementations of the same logic:

* `src/server.js` — in-memory JSON store (namespace `Server` below);
* `src/js/app.js` — the "v2" express server, same store shape but with
  input validation (namespace `AppV1` below, after its `/api/v1` routes);
* the SQLite variant (`src/unnamed/part_002` + `src/database/database.js`,
  namespace `Sqlite` below).

Modelling conventions:

* Clock times appear in the source as zero-padded `"HH:MM"` strings compared
  with JavaScript string comparison.  For well-formed two-digit components,
  string comparison is exactly lexicographic comparison of the (hour, minute)
  pair, so a time is embedded as the structure `HM` and the source's
  `<` / `>=` on time strings become `hmLt` / `hmLe` below.
  `parseInt(t.split(':')[0])` becomes `HM.hour`.
* Dates appear as `"YYYY-MM-DD"` strings, compared for equality in the booking
  filters and for order in the past-date checks (`new Date(date) < today`).
  For well-formed strings both coincide with equality/order of the encoded
  calendar day, so a date is embedded as a `Nat` day index; the current day
  (`new Date().setHours(0,0,0,0)`) is passed in explicitly as `today`.
* `Date.now()` / `new Date().toISOString()` timestamps are passed in as an
  explicit `now : Nat`; fresh ids `'booking_' + Date.now()` become
  `"booking_" ++ toString now`.
* Password hashing (bcrypt) is an external collaborator; the stored credential
  is modelled as the supplied password string itself, which is irrelevant to
  every claim treated here.
* Fields that a JS handler adds dynamically (`updatedAt`, the `status` /
  `emailVerified` fields only the app.js registration sets) are modelled as
  `Option` fields, absent = `none`.
* HTTP handlers are embedded as total functions returning `RouteResult`:
  `ok` for the JSON success response, `err ⟨status, message⟩` for a
  `res.status(status).json({error: message})` response.  Authentication
  middleware resolves the acting user; the embedded operations take that
  actor as a parameter.
-/

namespace Basketball

/-- A clock time, `"HH:MM"` in the source.  JavaScript string comparison on
well-formed zero-padded time strings is lexicographic comparison of the
(hour, minute) pair. -/
structure HM where
  hour : Nat
  minute : Nat
deriving DecidableEq, Repr

/-- String comparison `a <= b` on `"HH:MM"` time strings. -/
def hmLe (a b : HM) : Bool :=
  decide (a.hour < b.hour ∨ (a.hour = b.hour ∧ a.minute ≤ b.minute))

/-- String comparison `a < b` on `"HH:MM"` time strings. -/
def hmLt (a b : HM) : Bool :=
  decide (a.hour < b.hour ∨ (a.hour = b.hour ∧ a.minute < b.minute))

theorem hmLe_iff {a b : HM} :
    hmLe a b = true ↔ (a.hour < b.hour ∨ (a.hour = b.hour ∧ a.minute ≤ b.minute)) := by
  simp [hmLe]

theorem hmLt_iff {a b : HM} :
    hmLt a b = true ↔ (a.hour < b.hour ∨ (a.hour = b.hour ∧ a.minute < b.minute)) := by
  simp [hmLt]

theorem hmLe_aligned {a b : Nat} : hmLe ⟨a, 0⟩ ⟨b, 0⟩ = true ↔ a ≤ b := by
  rw [hmLe_iff]
  show a < b ∨ (a = b ∧ (0 : Nat) ≤ 0) ↔ a ≤ b
  omega

theorem hmLt_aligned {a b : Nat} : hmLt ⟨a, 0⟩ ⟨b, 0⟩ = true ↔ a < b := by
  rw [hmLt_iff]
  show a < b ∨ (a = b ∧ (0 : Nat) < 0) ↔ a < b
  omega

/-- A court (`data.courts` entries; cosmetic fields omitted). -/
structure Court where
  id : String
  name : String
  location : String
  pricePerHour : Int
  capacity : Nat
  isActive : Bool
deriving DecidableEq, Repr

/-- A user record (`data.users` entries). -/
structure User where
  id : String
  name : String
  email : String
  phone : Option String
  password : String
  role : String
  status : Option String
  emailVerified : Option Bool
  createdAt : Nat
  updatedAt : Option Nat
deriving DecidableEq, Repr

/-- A session record (`data.sessions` entries of server.js). -/
structure Session where
  token : String
  userId : String
  expiresAt : Nat
deriving DecidableEq, Repr

/-- A booking record (`data.bookings` entries). -/
structure Booking where
  id : String
  userId : String
  courtId : String
  date : Nat
  startTime : HM
  endTime : HM
  status : String
  totalPrice : Int
  paymentId : Option String
  createdAt : Nat
  updatedAt : Option Nat
deriving DecidableEq, Repr

/-- The whole in-memory store (the `data` global of server.js / app.js). -/
structure Store where
  users : List User
  courts : List Court
  bookings : List Booking
  sessions : List Session
deriving DecidableEq, Repr

/-- An error response: `res.status(status).json({error: msg})`. -/
structure ErrResp where
  status : Nat
  msg : String
deriving DecidableEq, Repr

/-- Outcome of a route handler. -/
inductive RouteResult (α : Type) where
  | ok (a : α)
  | err (e : ErrResp)
deriving DecidableEq, Repr

namespace RouteResult

def isOk {α : Type} : RouteResult α → Bool
  | .ok _ => true
  | .err _ => false

def getOk {α : Type} : RouteResult α → Option α
  | .ok a => some a
  | .err _ => none

end RouteResult

/-- The body of a registration request.  The server-side handlers destructure
only `{name, email, phone, password}`; the `role` field models an arbitrary
extra value a client may supply in the JSON body — no handler reads it. -/
structure RegisterReq where
  name : String
  email : String
  phone : Option String
  password : String
  role : String
deriving DecidableEq, Repr

/-- The hourly slot-start times enumerated by
`for (let hour = 6; hour <= 22; hour++)` (server.js:165, app.js:1719,1840):
the 17 hours 06:00 .. 22:00 inclusive. -/
def slotsAll : List HM := (List.range 17).map (fun i => ⟨6 + i, 0⟩)

/-- Function `getAvailableSlots(courtId, date)` of server.js:157-177; the identical
inline loop appears in app.js:1712-1728 (availability route) and
app.js:1839-1849 (booking creation).  A slot is booked when some booking for
that court and date whose status is not `'cancelled'` satisfies
`timeSlot >= b.startTime && timeSlot < b.endTime`. -/
def getAvailableSlots (bookings : List Booking) (courtId : String) (date : Nat) : List HM :=
  let bs := bookings.filter (fun b =>
    b.courtId == courtId && b.date == date && b.status != "cancelled")
  slotsAll.filter (fun t =>
    ! bs.any (fun b => hmLe b.startTime t && hmLt t b.endTime))

/-- The requested hour slots of a booking request:
`for (let hour = startHour; hour < endHour; hour++)` over
`parseInt(startTime.split(':')[0])` .. (server.js:303-305, app.js:1851-1854). -/
def requestedSlots (s e : HM) : List HM :=
  (List.range (e.hour - s.hour)).map (fun i => ⟨s.hour + i, 0⟩)

/-- The slot-enumeration conflict check of booking creation:
`requestedSlots.every(slot => availableSlots.includes(slot))`
(server.js:307, app.js:1856). -/
def slotCheckAccepts (bookings : List Booking) (courtId : String) (date : Nat)
    (s e : HM) : Bool :=
  (requestedSlots s e).all (fun t => (getAvailableSlots bookings courtId date).contains t)

theorem mem_slotsAll {t : HM} : t ∈ slotsAll ↔ ∃ h, 6 ≤ h ∧ h ≤ 22 ∧ t = ⟨h, 0⟩ := by
  simp only [slotsAll, List.mem_map, List.mem_range]
  constructor
  · rintro ⟨i, hi, rfl⟩
    exact ⟨6 + i, by omega, by omega, rfl⟩
  · rintro ⟨h, h6, h22, rfl⟩
    exact ⟨h - 6, by omega, by congr 1; omega⟩

theorem mem_requestedSlots {s e : HM} {t : HM} :
    t ∈ requestedSlots s e ↔ ∃ h, s.hour ≤ h ∧ h < e.hour ∧ t = ⟨h, 0⟩ := by
  simp only [requestedSlots, List.mem_map, List.mem_range]
  constructor
  · rintro ⟨i, hi, rfl⟩
    exact ⟨s.hour + i, by omega, by omega, rfl⟩
  · rintro ⟨h, hs, he, rfl⟩
    exact ⟨h - s.hour, by omega, by congr 1; omega⟩

/-- Membership characterisation of `getAvailableSlots`: a time is a free slot
iff it is one of the 17 enumerated hour starts and no booking for that court
and date with status other than `'cancelled'` covers it. -/
theorem mem_getAvailableSlots {bookings : List Booking} {courtId : String}
    {date : Nat} {t : HM} :
    t ∈ getAvailableSlots bookings courtId date ↔
      (∃ h, 6 ≤ h ∧ h ≤ 22 ∧ t = ⟨h, 0⟩) ∧
      ∀ b ∈ bookings, b.courtId = courtId → b.date = date → b.status ≠ "cancelled" →
        ¬(hmLe b.startTime t = true ∧ hmLt t b.endTime = true) := by
  simp only [getAvailableSlots, List.mem_filter, Bool.not_eq_true', List.any_eq_false,
    List.mem_filter, Bool.and_eq_true, beq_iff_eq, bne_iff_ne, ne_eq, mem_slotsAll]
  constructor
  · rintro ⟨hbase, hfree⟩
    refine ⟨hbase, fun b hb hc hd hs hcov => ?_⟩
    have := hfree b ⟨hb, ⟨hc, hd⟩, hs⟩
    rw [hcov.1, hcov.2] at this
    simp at this
  · rintro ⟨hbase, hfree⟩
    exact ⟨hbase, fun b hb => hfree b hb.1 hb.2.1.1 hb.2.1.2 hb.2.2⟩

/-- Update the first booking whose id matches, setting its status and
`updatedAt` — `data.bookings.find(b => b.id === id)` followed by in-place
mutation (server.js:349-365, app.js:1908-1951, app.js:1953-1993). -/
def setStatusFirst (bs : List Booking) (bookingId newStatus : String) (now : Nat) :
    List Booking :=
  match bs with
  | [] => []
  | b :: rest =>
    if b.id == bookingId then { b with status := newStatus, updatedAt := some now } :: rest
    else b :: setStatusFirst rest bookingId newStatus now

namespace Server

/-! Operations of `src/server.js` (in-memory JSON store, no input validation). -/

/-- Route `GET /api/courts/:id/availability/:date` (server.js:265-269).  Returns the
free-slot list unconditionally; there is no court-existence check. -/
def availabilityRoute (st : Store) (courtId : String) (date : Nat) :
    RouteResult (List HM) :=
  .ok (getAvailableSlots st.bookings courtId date)

/-- Route `POST /api/bookings` (server.js:290-347).  Court lookup, slot-enumeration
conflict check, price `hours * court.pricePerHour`, booking stored with status
`'pending'`.  No date/time-range validation of any kind. -/
def createBooking (st : Store) (actorId courtId : String) (date : Nat)
    (startTime endTime : HM) (now : Nat) : RouteResult (Store × Booking) :=
  match st.courts.find? (fun c => c.id == courtId) with
  | none => .err ⟨404, "Court not found"⟩
  | some court =>
    if slotCheckAccepts st.bookings courtId date startTime endTime then
      let hours : Int := (endTime.hour : Int) - (startTime.hour : Int)
      let booking : Booking :=
        { id := "booking_" ++ toString now
          userId := actorId
          courtId := courtId
          date := date
          startTime := startTime
          endTime := endTime
          status := "pending"
          totalPrice := hours * court.pricePerHour
          paymentId := none
          createdAt := now
          updatedAt := none }
      .ok ({ st with bookings := st.bookings ++ [booking] }, booking)
    else .err ⟨400, "Requested slot is not available"⟩

/-- Route `PATCH /api/bookings/:id` (server.js:349-365).  Sets the status supplied in
the body on the first booking with that id, with no lifecycle-state check and
no overlap re-check. -/
def patchBooking (st : Store) (actor : User) (bookingId newStatus : String)
    (now : Nat) : RouteResult Store :=
  match st.bookings.find? (fun b => b.id == bookingId) with
  | none => .err ⟨404, "Booking not found"⟩
  | some b =>
    if b.userId != actor.id && actor.role != "admin" then
      .err ⟨403, "Not authorized"⟩
    else
      .ok { st with bookings := setStatusFirst st.bookings bookingId newStatus now }

/-- Remove the first user whose id matches —
`data.users.findIndex` + `splice(userIndex, 1)` (server.js:428,444). -/
def removeFirstUser (us : List User) (targetId : String) : List User :=
  match us with
  | [] => []
  | u :: rest => if u.id == targetId then rest else u :: removeFirstUser rest targetId

/-- Route `DELETE /api/admin/users/:id` (server.js:423-448).  Admin only; refuses to
delete admin users; otherwise removes the user's bookings and the user. -/
def deleteUser (st : Store) (actor : User) (targetId : String) : RouteResult Store :=
  if actor.role != "admin" then .err ⟨403, "Admin access required"⟩
  else
    match st.users.find? (fun u => u.id == targetId) with
    | none => .err ⟨404, "User not found"⟩
    | some user =>
      if user.role == "admin" then .err ⟨400, "Cannot delete admin user"⟩
      else
        .ok { st with
              bookings := st.bookings.filter (fun b => b.userId != targetId)
              users := removeFirstUser st.users targetId }

/-- Route `POST /api/auth/register` (server.js:182-209).  Only
`{name, email, phone, password}` are read from the body; the created record
has `role: 'user'`. -/
def register (st : Store) (req : RegisterReq) (now : Nat) :
    RouteResult (Store × User) :=
  if st.users.any (fun u => u.email == req.email) then
    .err ⟨400, "Email already registered"⟩
  else
    let user : User :=
      { id := "user_" ++ toString now
        name := req.name
        email := req.email
        phone := req.phone
        password := req.password
        role := "user"
        status := none
        emailVerified := none
        createdAt := now
        updatedAt := none }
    .ok ({ st with users := st.users ++ [user] }, user)

end Server

namespace AppV1

/-! Operations of `src/js/app.js` (`/api/v1` routes, with input validation). -/

/-- Route `GET /api/v1/courts/:courtId/availability/:date` (app.js:1687-1748):
past-date check, then court-existence check (by id only, `isActive` not
required here), then the same slot loop as server.js. -/
def availabilityRoute (st : Store) (courtId : String) (date today : Nat) :
    RouteResult (List HM) :=
  if date < today then .err ⟨400, "Cannot book for past dates"⟩
  else
    match st.courts.find? (fun c => c.id == courtId) with
    | none => .err ⟨404, "Court not found"⟩
    | some _ => .ok (getAvailableSlots st.bookings courtId date)

/-- Route `POST /api/v1/bookings` (app.js:1799-1906): past-date check, court lookup
(requires `isActive`), hour-range validation
`startHour >= endHour || startHour < 6 || endHour > 22` (minutes are never
inspected), then the slot-enumeration check, price, and a `'pending'` booking. -/
def createBooking (st : Store) (actorId courtId : String) (date : Nat)
    (startTime endTime : HM) (now today : Nat) : RouteResult (Store × Booking) :=
  if date < today then .err ⟨400, "Cannot book for past dates"⟩
  else
    match st.courts.find? (fun c => c.id == courtId && c.isActive) with
    | none => .err ⟨404, "Court not found"⟩
    | some court =>
      if startTime.hour ≥ endTime.hour || startTime.hour < 6 || endTime.hour > 22 then
        .err ⟨400, "Invalid time range. Courts open 6 AM - 10 PM"⟩
      else if slotCheckAccepts st.bookings courtId date startTime endTime then
        let hours : Int := (endTime.hour : Int) - (startTime.hour : Int)
        let booking : Booking :=
          { id := "booking_" ++ toString now
            userId := actorId
            courtId := courtId
            date := date
            startTime := startTime
            endTime := endTime
            status := "pending"
            totalPrice := hours * court.pricePerHour
            paymentId := none
            createdAt := now
            updatedAt := some now }
        .ok ({ st with bookings := st.bookings ++ [booking] }, booking)
      else .err ⟨400, "Requested slots are not available"⟩

/-- Route `DELETE /api/v1/bookings/:id` (app.js:1953-1993), the cancel operation:
find the booking, authorize, then set `status = 'cancelled'` unconditionally —
the current status is never inspected. -/
def cancelBooking (st : Store) (actor : User) (bookingId : String) (now : Nat) :
    RouteResult Store :=
  match st.bookings.find? (fun b => b.id == bookingId) with
  | none => .err ⟨404, "Booking not found"⟩
  | some b =>
    if b.userId != actor.id && actor.role != "admin" then
      .err ⟨403, "Not authorized to delete this booking"⟩
    else
      .ok { st with bookings := setStatusFirst st.bookings bookingId "cancelled" now }

/-- Route `POST /api/v1/auth/register` (app.js:1443-1505).  As in server.js, only
`{name, email, phone, password}` are read; the record gets `role: 'user'`,
`status: 'active'`, `emailVerified: false`. -/
def register (st : Store) (req : RegisterReq) (now : Nat) :
    RouteResult (Store × User) :=
  if st.users.any (fun u => u.email == req.email) then
    .err ⟨400, "Email already registered"⟩
  else
    let user : User :=
      { id := "user_" ++ toString now
        name := req.name
        email := req.email
        phone := req.phone
        password := req.password
        role := "user"
        status := some "active"
        emailVerified := some false
        createdAt := now
        updatedAt := some now }
    .ok ({ st with users := st.users ++ [user] }, user)

end AppV1

namespace Sqlite

/-! The SQLite variant: `src/unnamed/part_002` with `src/database/database.js`. -/

/-- Query `db.getBookingsByCourt(courtId, date)` (database.js:448-454):
`SELECT * FROM bookings WHERE court_id = ? AND date = ?
AND status IN ('pending', 'confirmed')` (the `ORDER BY start_time` is
irrelevant to the conflict check below). -/
def getBookingsByCourt (bookings : List Booking) (courtId : String) (date : Nat) :
    List Booking :=
  bookings.filter (fun b =>
    b.courtId == courtId && b.date == date &&
      (b.status == "pending" || b.status == "confirmed"))

/-- The interval-overlap conflict test of `POST /api/bookings`
(part_002:495-499): some existing booking with
`start_time < booking.end_time && end_time > booking.start_time`. -/
def hasConflict (bookings : List Booking) (courtId : String) (date : Nat)
    (startTime endTime : HM) : Bool :=
  (getBookingsByCourt bookings courtId date).any (fun b =>
    hmLt startTime b.endTime && hmLt b.startTime endTime)

end Sqlite

/-! Section: Spec-side definitions

These follow the specification's words, to be compared with the definitions
above, which follow the source. -/

/-- Modelled from the spec (§4.1, §8): "enumerate every whole-hour slot from
opening hour (06:00) to closing hour minus one (last bookable start is 21:00,
i.e. the window is a half-open set of hour-starts in [06:00, 22:00)). For each
slot, mark it 'booked' if any booking for that (resource, date) with status in
{pending, confirmed} has `start_time <= slot < end_time`. Return the ordered
list of unmarked slots." -/
def specFreeSlots (bookings : List Booking) (courtId : String) (date : Nat) :
    List HM :=
  ((List.range 16).map (fun i => (⟨6 + i, 0⟩ : HM))).filter (fun t =>
    decide (∀ b ∈ bookings,
      b.courtId = courtId → b.date = date →
      (b.status = "pending" ∨ b.status = "confirmed") →
      ¬(hmLe b.startTime t = true ∧ hmLt t b.endTime = true)))

/-- Overlap-freedom of a requested range against every booking for that court
and date whose status is not `'cancelled'`, by the half-open interval test of
the spec (§4.2): `existing.start < requested.end AND requested.start <
existing.end`. -/
def overlapFreeNonCancelled (bookings : List Booking) (courtId : String)
    (date : Nat) (s e : HM) : Prop :=
  ∀ b ∈ bookings, b.courtId = courtId → b.date = date → b.status ≠ "cancelled" →
    ¬(hmLt b.startTime e = true ∧ hmLt s b.endTime = true)

instance (bookings : List Booking) (courtId : String) (date : Nat) (s e : HM) :
    Decidable (overlapFreeNonCancelled bookings courtId date s e) := by
  unfold overlapFreeNonCancelled; infer_instance

/-! Section: The non-overlap invariant and the booking operations (claim C1) -/

/-- Later of two times (lexicographic, as JS string comparison). -/
def hmMax (a b : HM) : HM := if hmLe a b then b else a

/-- Earlier of two times. -/
def hmMin (a b : HM) : HM := if hmLe a b then a else b

/-- The half-open time ranges `[s1, e1)` and `[s2, e2)` intersect: the later
start is strictly before the earlier end.  Degenerate ranges (start ≥ end)
intersect nothing. -/
def RangesOverlap (s1 e1 s2 e2 : HM) : Prop :=
  hmLt (hmMax s1 s2) (hmMin e1 e2) = true

instance (s1 e1 s2 e2 : HM) : Decidable (RangesOverlap s1 e1 s2 e2) := by
  unfold RangesOverlap; infer_instance

/-- A booking counts toward the overlap invariant iff its status is `pending`
or `confirmed` (spec §3: non-terminal bookings). -/
def activeB (b : Booking) : Prop := b.status = "pending" ∨ b.status = "confirmed"

instance (b : Booking) : Decidable (activeB b) := by unfold activeB; infer_instance

/-- Two booking records do not violate the invariant: if they are for the same
court and date and both non-terminal, their time ranges do not intersect. -/
def relB (b1 b2 : Booking) : Prop :=
  b1.courtId = b2.courtId → b1.date = b2.date → activeB b1 → activeB b2 →
    ¬RangesOverlap b1.startTime b1.endTime b2.startTime b2.endTime

instance (b1 b2 : Booking) : Decidable (relB b1 b2) := by
  unfold relB; infer_instance

/-- The overlap invariant over a booking list (spec §3): for every (court,
date), ranges of pending-or-confirmed bookings are pairwise non-intersecting. -/
def Inv (bs : List Booking) : Prop := bs.Pairwise relB

instance (bs : List Booking) : Decidable (Inv bs) := by
  unfold Inv; infer_instance

/-- Both endpoints of a booking are hour-aligned. -/
def AlignedBk (b : Booking) : Prop := b.startTime.minute = 0 ∧ b.endTime.minute = 0

instance (b : Booking) : Decidable (AlignedBk b) := by unfold AlignedBk; infer_instance

/-- Every stored booking is hour-aligned. -/
def AllAligned (bs : List Booking) : Prop := ∀ b ∈ bs, AlignedBk b

instance (bs : List Booking) : Decidable (AllAligned bs) := by
  unfold AllAligned; infer_instance

/-- A booking operation of server.js: `POST /api/bookings` or
`PATCH /api/bookings/:id` (the latter covers cancel, confirm and arbitrary
status updates). -/
inductive Op where
  | create (actorId courtId : String) (date : Nat) (s e : HM) (now : Nat)
  | setStatus (actor : User) (bookingId newStatus : String) (now : Nat)
deriving Repr

/-- Apply one operation to the store; a rejected request leaves it unchanged. -/
def applyOp (st : Store) : Op → Store
  | .create actorId courtId date s e now =>
    match Server.createBooking st actorId courtId date s e now with
    | .ok (st', _) => st'
    | .err _ => st
  | .setStatus actor bookingId newStatus now =>
    match Server.patchBooking st actor bookingId newStatus now with
    | .ok st' => st'
    | .err _ => st

/-- Apply a sequence of operations left to right. -/
def applyOps (st : Store) (ops : List Op) : Store := ops.foldl applyOp st

/-- The operations of the amended claim C1: an hour-aligned create, a cancel
(status update to `'cancelled'`), or a confirm (status update to `'confirmed'`
of a booking that is currently pending or confirmed).  The unrestricted status
update — in particular re-activating a cancelled booking — is excluded. -/
def GoodOp (st : Store) : Op → Prop
  | .create _ _ _ s e _ => s.minute = 0 ∧ e.minute = 0
  | .setStatus _ bookingId newStatus _ =>
    newStatus = "cancelled" ∨
      (newStatus = "confirmed" ∧ ∀ b ∈ st.bookings, b.id = bookingId → activeB b)

instance (st : Store) (op : Op) : Decidable (GoodOp st op) := by
  unfold GoodOp; cases op <;> infer_instance

/-- Every operation of the sequence is good in the state where it runs. -/
def GoodOps (st : Store) : List Op → Prop
  | [] => True
  | op :: rest => GoodOp st op ∧ GoodOps (applyOp st op) rest

instance (st : Store) (ops : List Op) : Decidable (GoodOps st ops) := by
  induction ops generalizing st with
  | nil => unfold GoodOps; infer_instance
  | cons op rest ih =>
    unfold GoodOps
    have := ih (applyOp st op)
    infer_instance

/-! Section: Helper lemmas for the invariant proof -/

theorem activeB_ne_cancelled {b : Booking} (h : activeB b) : b.status ≠ "cancelled" := by
  rcases h with h | h <;> rw [h] <;> decide

/-- Comparisons between hour-aligned times are comparisons of their hours. -/
theorem hmLe_hour {a b : HM} (ha : a.minute = 0) (hb : b.minute = 0) :
    hmLe a b = true ↔ a.hour ≤ b.hour := by
  rw [hmLe_iff]; omega

theorem hmLt_hour {a b : HM} (ha : a.minute = 0) (hb : b.minute = 0) :
    hmLt a b = true ↔ a.hour < b.hour := by
  rw [hmLt_iff]; omega

/-- An hour-aligned time is `<=` an hour slot iff its hour is. -/
theorem hmLe_slot {a : HM} {h : Nat} (ha : a.minute = 0) :
    hmLe a ⟨h, 0⟩ = true ↔ a.hour ≤ h := by
  rw [hmLe_iff]
  show a.hour < h ∨ (a.hour = h ∧ a.minute ≤ 0) ↔ a.hour ≤ h
  omega

/-- An hour slot is `<` an hour-aligned time iff its hour is. -/
theorem slot_hmLt {a : HM} {h : Nat} (ha : a.minute = 0) :
    hmLt ⟨h, 0⟩ a = true ↔ h < a.hour := by
  rw [hmLt_iff]
  show h < a.hour ∨ (h = a.hour ∧ 0 < a.minute) ↔ h < a.hour
  omega

/-- For hour-aligned endpoints, range intersection is the max/min test on the
hour components. -/
theorem rangesOverlap_aligned {s1 e1 s2 e2 : HM} (h1 : s1.minute = 0)
    (h2 : e1.minute = 0) (h3 : s2.minute = 0) (h4 : e2.minute = 0) :
    RangesOverlap s1 e1 s2 e2 ↔ max s1.hour s2.hour < min e1.hour e2.hour := by
  unfold RangesOverlap hmMax hmMin
  by_cases hA : hmLe s1 s2 = true <;> by_cases hB : hmLe e1 e2 = true
  · rw [if_pos hA, if_pos hB, hmLt_hour h3 h2]
    rw [hmLe_hour h1 h3] at hA; rw [hmLe_hour h2 h4] at hB; omega
  · rw [if_pos hA, if_neg hB, hmLt_hour h3 h4]
    rw [hmLe_hour h1 h3] at hA; rw [hmLe_hour h2 h4] at hB; omega
  · rw [if_neg hA, if_pos hB, hmLt_hour h1 h2]
    rw [hmLe_hour h1 h3] at hA; rw [hmLe_hour h2 h4] at hB; omega
  · rw [if_neg hA, if_neg hB, hmLt_hour h1 h4]
    rw [hmLe_hour h1 h3] at hA; rw [hmLe_hour h2 h4] at hB; omega

/-- If the slot-enumeration check accepts `[s, e)`, every requested hour's
slot is free. -/
theorem slotCheckAccepts_covers {bs : List Booking} {c : String} {d : Nat}
    {s e : HM} (hacc : slotCheckAccepts bs c d s e = true) {h : Nat}
    (h1 : s.hour ≤ h) (h2 : h < e.hour) :
    (⟨h, 0⟩ : HM) ∈ getAvailableSlots bs c d := by
  unfold slotCheckAccepts at hacc
  rw [List.all_eq_true] at hacc
  have hm : (⟨h, 0⟩ : HM) ∈ requestedSlots s e := mem_requestedSlots.2 ⟨h, h1, h2, rfl⟩
  have := hacc _ hm
  simpa [List.contains] using this

/-- Core of the creation case: an accepted hour-aligned request does not
intersect any stored hour-aligned non-terminal booking for the same court and
date. -/
theorem create_no_overlap {bs : List Booking} {c : String} {d : Nat} {s e : HM}
    (hacc : slotCheckAccepts bs c d s e = true)
    (hs : s.minute = 0) (he : e.minute = 0)
    {b : Booking} (hb : b ∈ bs) (hba : AlignedBk b)
    (hcourt : b.courtId = c) (hdate : b.date = d) (hact : activeB b) :
    ¬RangesOverlap b.startTime b.endTime s e := by
  intro hov
  obtain ⟨hb1, hb2⟩ := hba
  rw [rangesOverlap_aligned hb1 hb2 hs he] at hov
  have hmem := slotCheckAccepts_covers hacc
    (h := max b.startTime.hour s.hour) (by omega) (by omega)
  rw [mem_getAvailableSlots] at hmem
  refine hmem.2 b hb hcourt hdate (activeB_ne_cancelled hact) ⟨?_, ?_⟩
  · rw [hmLe_slot hb1]; omega
  · rw [slot_hmLt hb2]; omega

theorem inv_append_single {bs : List Booking} {nb : Booking} (hI : Inv bs)
    (h : ∀ b ∈ bs, relB b nb) : Inv (bs ++ [nb]) := by
  unfold Inv at *
  rw [List.pairwise_append]
  refine ⟨hI, List.pairwise_singleton _ _, fun a ha b hb => ?_⟩
  rw [List.mem_singleton] at hb
  subst hb
  exact h a ha

/-- Every element of `setStatusFirst bs id ns now` is either an original
element or the status-updated copy of an original element with that id. -/
theorem mem_setStatusFirst {bs : List Booking} {bookingId ns : String} {now : Nat}
    {b' : Booking} (h : b' ∈ setStatusFirst bs bookingId ns now) :
    ∃ b ∈ bs, b' = b ∨ (b.id = bookingId ∧
      b' = { b with status := ns, updatedAt := some now }) := by
  induction bs with
  | nil => simp [setStatusFirst] at h
  | cons b rest ih =>
    unfold setStatusFirst at h
    by_cases hid : (b.id == bookingId) = true
    · rw [if_pos hid] at h
      rcases List.mem_cons.1 h with h | h
      · exact ⟨b, List.mem_cons_self .., Or.inr ⟨by simpa using hid, h⟩⟩
      · exact ⟨b', List.mem_cons_of_mem _ h, Or.inl rfl⟩
    · rw [if_neg hid] at h
      rcases List.mem_cons.1 h with h | h
      · exact ⟨b, List.mem_cons_self .., Or.inl h⟩
      · obtain ⟨x, hx, hcase⟩ := ih h
        exact ⟨x, List.mem_cons_of_mem _ hx, hcase⟩

theorem allAligned_setStatusFirst {bs : List Booking} {bookingId ns : String}
    {now : Nat} (hA : AllAligned bs) :
    AllAligned (setStatusFirst bs bookingId ns now) := by
  intro b' hb'
  obtain ⟨b, hb, hcase⟩ := mem_setStatusFirst hb'
  rcases hcase with heq | ⟨_, heq⟩ <;> rw [heq] <;> exact hA b hb

/-- A status update preserves the invariant provided that, whenever the new
status is non-terminal, the updated booking was already non-terminal. -/
theorem inv_setStatusFirst {bs : List Booking} {bookingId ns : String} {now : Nat}
    (hI : Inv bs)
    (hcond : ∀ b ∈ bs, b.id = bookingId →
      ((ns = "pending" ∨ ns = "confirmed") → activeB b)) :
    Inv (setStatusFirst bs bookingId ns now) := by
  induction bs with
  | nil => simpa [setStatusFirst] using hI
  | cons b rest ih =>
    unfold Inv at hI
    rw [List.pairwise_cons] at hI
    obtain ⟨hrel, hrest⟩ := hI
    unfold setStatusFirst Inv
    by_cases hid : (b.id == bookingId) = true
    · rw [if_pos hid, List.pairwise_cons]
      refine ⟨fun x hx hc hd ha1 ha2 => ?_, hrest⟩
      have hactb : activeB b :=
        hcond b (List.mem_cons_self ..) (by simpa using hid) ha1
      exact hrel x hx hc hd hactb ha2
    · rw [if_neg hid, List.pairwise_cons]
      refine ⟨fun x hx => ?_, ih hrest
        (fun y hy hyid => hcond y (List.mem_cons_of_mem _ hy) hyid)⟩
      obtain ⟨y, hy, hcase⟩ := mem_setStatusFirst hx
      have hrely := hrel y hy
      rcases hcase with rfl | ⟨hyid, rfl⟩
      · exact hrely
      · intro hc hd ha1 ha2
        have hacty : activeB y :=
          hcond y (List.mem_cons_of_mem _ hy) hyid ha2
        exact hrely hc hd ha1 hacty

/-- Inversion of a successful booking creation (server.js variant). -/
theorem createBooking_ok_inv {st st' : Store} {aId cId : String} {date : Nat}
    {s e : HM} {now : Nat} {bk : Booking}
    (h : Server.createBooking st aId cId date s e now = .ok (st', bk)) :
    slotCheckAccepts st.bookings cId date s e = true ∧
    st'.bookings = st.bookings ++ [bk] ∧
    bk.courtId = cId ∧ bk.date = date ∧ bk.startTime = s ∧ bk.endTime = e ∧
    bk.status = "pending" := by
  unfold Server.createBooking at h
  split at h
  · exact absurd h (by simp)
  · split at h
    · rename_i hacc
      simp only [RouteResult.ok.injEq, Prod.mk.injEq] at h
      obtain ⟨h1, h2⟩ := h
      subst h1; subst h2
      exact ⟨hacc, rfl, rfl, rfl, rfl, rfl, rfl⟩
    · exact absurd h (by simp)

/-- Inversion of a successful status update (server.js variant). -/
theorem patchBooking_ok_inv {st st' : Store} {actor : User} {bookingId ns : String}
    {now : Nat} (h : Server.patchBooking st actor bookingId ns now = .ok st') :
    st'.bookings = setStatusFirst st.bookings bookingId ns now := by
  unfold Server.patchBooking at h
  split at h
  · exact absurd h (by simp)
  · split at h
    · exact absurd h (by simp)
    · simp only [RouteResult.ok.injEq] at h
      subst h
      rfl

/-- One good operation preserves hour-alignment and the non-overlap invariant. -/
theorem goodOp_step {st : Store} {op : Op}
    (hA : AllAligned st.bookings) (hI : Inv st.bookings) (hG : GoodOp st op) :
    AllAligned (applyOp st op).bookings ∧ Inv (applyOp st op).bookings := by
  cases op with
  | create actorId courtId date s e now =>
    obtain ⟨hs, he⟩ := hG
    cases hres : Server.createBooking st actorId courtId date s e now with
    | err eresp =>
      have happ : applyOp st (.create actorId courtId date s e now) = st := by
        simp only [applyOp, hres]
      rw [happ]; exact ⟨hA, hI⟩
    | ok p =>
      obtain ⟨st', bk⟩ := p
      have happ : applyOp st (.create actorId courtId date s e now) = st' := by
        simp only [applyOp, hres]
      rw [happ]
      obtain ⟨hacc, hbks, hc, hd, hst, hen, hstat⟩ := createBooking_ok_inv hres
      rw [hbks]
      constructor
      · intro b hb
        rcases List.mem_append.1 hb with hb | hb
        · exact hA b hb
        · rw [List.mem_singleton] at hb
          subst hb
          rw [AlignedBk, hst, hen]
          exact ⟨hs, he⟩
      · refine inv_append_single hI (fun b hb hcEq hdEq ha1 _ => ?_)
        rw [hst, hen]
        exact create_no_overlap hacc hs he hb (hA b hb) (hcEq.trans hc)
          (hdEq.trans hd) ha1
  | setStatus actor bookingId ns now =>
    cases hres : Server.patchBooking st actor bookingId ns now with
    | err eresp =>
      have happ : applyOp st (.setStatus actor bookingId ns now) = st := by
        simp only [applyOp, hres]
      rw [happ]; exact ⟨hA, hI⟩
    | ok st' =>
      have happ : applyOp st (.setStatus actor bookingId ns now) = st' := by
        simp only [applyOp, hres]
      rw [happ, patchBooking_ok_inv hres]
      refine ⟨allAligned_setStatusFirst hA, inv_setStatusFirst hI ?_⟩
      intro x hx hxid hns
      rcases hG with hG | hG
      · subst hG
        exact absurd hns (by decide)
      · exact hG.2 x hx hxid

/-- A sequence of good operations preserves hour-alignment and the invariant. -/
theorem goodOps_steps {ops : List Op} {st : Store}
    (hA : AllAligned st.bookings) (hI : Inv st.bookings) (hG : GoodOps st ops) :
    AllAligned (applyOps st ops).bookings ∧ Inv (applyOps st ops).bookings := by
  induction ops generalizing st with
  | nil => exact ⟨hA, hI⟩
  | cons op rest ih =>
    obtain ⟨hop, hrest⟩ := hG
    have hstep := goodOp_step hA hI hop
    exact ih hstep.1 hstep.2 hrest

/-! Section: Claim C1 -/

/-- C1, counterexample.  The status-update operation (`PATCH /api/bookings/:id`)
performs no lifecycle check and no overlap re-check, so it can set a cancelled
booking back to `'confirmed'`.  Starting from a state satisfying the invariant
(one cancelled and one confirmed booking over the same range), a single such
operation produces two confirmed bookings for the same court and date with
identical ranges 10:00–12:00, violating pairwise non-overlap. -/
theorem c1_counterexample :
    Inv [(⟨"bA", "u1", "c1", 100, ⟨10, 0⟩, ⟨12, 0⟩, "cancelled", 1000, none, 0, none⟩ : Booking),
         (⟨"bB", "u2", "c1", 100, ⟨10, 0⟩, ⟨12, 0⟩, "confirmed", 1000, none, 0, none⟩ : Booking)] ∧
    ¬Inv (applyOps
      (⟨[⟨"a1", "Admin", "a@x", none, "pw", "admin", none, none, 0, none⟩],
        [⟨"c1", "Main Court", "A", 500, 10, true⟩],
        [⟨"bA", "u1", "c1", 100, ⟨10, 0⟩, ⟨12, 0⟩, "cancelled", 1000, none, 0, none⟩,
         ⟨"bB", "u2", "c1", 100, ⟨10, 0⟩, ⟨12, 0⟩, "confirmed", 1000, none, 0, none⟩],
        []⟩ : Store)
      [.setStatus ⟨"a1", "Admin", "a@x", none, "pw", "admin", none, none, 0, none⟩
        "bA" "confirmed" 7]).bookings := by
  constructor
  · decide
  · decide

/-- C1 (amended): for every (court, date), starting from any state whose
bookings are hour-aligned and satisfy the pairwise non-overlap invariant for
pending-or-confirmed bookings, every sequence of hour-aligned createBooking
operations, cancels (status update to `'cancelled'`), and confirms (status
update to `'confirmed'` of a currently pending-or-confirmed booking) preserves
the invariant.  The unrestricted status-update operation is excluded: as the
counterexample shows, it can re-activate a cancelled booking and break the
invariant. -/
theorem c1_invariant_preserved (ops : List Op) (st : Store)
    (hA : AllAligned st.bookings) (hI : Inv st.bookings) (hG : GoodOps st ops) :
    Inv (applyOps st ops).bookings :=
  (goodOps_steps hA hI hG).2

/-- C1, witness: a concrete run — an aligned creation of 10:00–12:00 next to an
existing 09:00–10:00 pending booking, followed by a cancel — keeps the
invariant. -/
theorem c1_invariant_preserved_witness :
    Inv (applyOps
      (⟨[⟨"a1", "Admin", "a@x", none, "pw", "admin", none, none, 0, none⟩],
        [⟨"c1", "Main Court", "A", 500, 10, true⟩],
        [⟨"b0", "u1", "c1", 100, ⟨9, 0⟩, ⟨10, 0⟩, "pending", 500, none, 0, none⟩],
        []⟩ : Store)
      [.create "u1" "c1" 100 ⟨10, 0⟩ ⟨12, 0⟩ 55,
       .setStatus ⟨"a1", "Admin", "a@x", none, "pw", "admin", none, none, 0, none⟩
         "b0" "cancelled" 56]).bookings :=
  c1_invariant_preserved _ _ (by decide) (by decide) (by decide)

/-! Section: Claim C2 -/

/-- C2, counterexample.  The availability loop runs `hour <= 22`, so the slot
`22:00` — outside [06:00, 22:00) — is returned whenever free (here: no
bookings at all), and the filter is `status !== 'cancelled'`, so a slot covered
only by an `'expired'` booking is *not* returned as free. -/
theorem c2_counterexample :
    getAvailableSlots [] "court_001" 100 ≠ specFreeSlots [] "court_001" 100 ∧
    (⟨22, 0⟩ : HM) ∈ getAvailableSlots [] "court_001" 100 ∧
    (⟨22, 0⟩ : HM) ∉ specFreeSlots [] "court_001" 100 ∧
    (⟨10, 0⟩ : HM) ∉ getAvailableSlots
      [(⟨"b1", "u1", "court_001", 100, ⟨10, 0⟩, ⟨11, 0⟩, "expired", 500, none, 0, none⟩ : Booking)]
      "court_001" 100 ∧
    (⟨10, 0⟩ : HM) ∈ specFreeSlots
      [(⟨"b1", "u1", "court_001", 100, ⟨10, 0⟩, ⟨11, 0⟩, "expired", 500, none, 0, none⟩ : Booking)]
      "court_001" 100 := by
  refine ⟨by decide, by decide, by decide, by decide, by decide⟩

/-- The free-slot list the code actually computes, phrased declaratively: the
ordered hour starts of [06:00, 22:00] — 22:00 *inclusive* — that are not
covered by any booking for that court and date whose status is not
`'cancelled'` (so `'expired'` bookings also block). -/
def specFreeSlotsAmended (bookings : List Booking) (courtId : String) (date : Nat) :
    List HM :=
  ((List.range 17).map (fun i => (⟨6 + i, 0⟩ : HM))).filter (fun t =>
    decide (∀ b ∈ bookings,
      b.courtId = courtId → b.date = date → b.status ≠ "cancelled" →
      ¬(hmLe b.startTime t = true ∧ hmLt t b.endTime = true)))

/-- C2 (amended): for every court, date and stored booking set, the free-slot
list returned by `getAvailableSlots` is exactly the ordered list of hour-start
slots within [06:00, 22:00] (inclusive of 22:00) that are not covered by any
booking for that (court, date) whose status is other than `'cancelled'`;
slots covered only by cancelled bookings are returned as free, while
`'expired'` bookings block their slots exactly as pending/confirmed ones do. -/
theorem c2_availability_amended (bookings : List Booking) (courtId : String)
    (date : Nat) :
    getAvailableSlots bookings courtId date =
      specFreeSlotsAmended bookings courtId date := by
  unfold getAvailableSlots specFreeSlotsAmended slotsAll
  apply List.filter_congr
  intro t ht
  rw [Bool.eq_iff_iff]
  simp only [Bool.not_eq_true', List.any_eq_false, List.mem_filter,
    Bool.and_eq_true, beq_iff_eq, bne_iff_ne, ne_eq, decide_eq_true_eq]
  constructor
  · intro hfree b hb hc hd hs hcov
    have := hfree b ⟨hb, ⟨hc, hd⟩, hs⟩
    rw [hcov.1, hcov.2] at this
    simp at this
  · intro hfree b hb
    have := hfree b hb.1 hb.2.1.1 hb.2.1.2 hb.2.2
    exact this

/-! Section: Claim C3 -/

/-- C3, counterexample.  With a single hour-aligned `'expired'` booking
10:00–11:00 and the hour-aligned in-hours request 10:00–11:00, the
slot-enumeration test rejects (`false`) although the half-open
interval-overlap test against non-cancelled/non-expired bookings — the SQLite
variant's check, which filters `status IN ('pending','confirmed')` — finds no
overlap.  The two tests therefore disagree, refuting the claimed equivalence. -/
theorem c3_counterexample :
    slotCheckAccepts
      [(⟨"b1", "u1", "c1", 100, ⟨10, 0⟩, ⟨11, 0⟩, "expired", 500, none, 0, none⟩ : Booking)]
      "c1" 100 ⟨10, 0⟩ ⟨11, 0⟩ = false ∧
    Sqlite.hasConflict
      [(⟨"b1", "u1", "c1", 100, ⟨10, 0⟩, ⟨11, 0⟩, "expired", 500, none, 0, none⟩ : Booking)]
      "c1" 100 ⟨10, 0⟩ ⟨11, 0⟩ = false := by
  refine ⟨by decide, by decide⟩

/-- C3 (amended): for every hour-aligned request [s, e) within operating hours
and every set of hour-aligned, non-degenerate existing bookings, the
slot-enumeration conflict test accepts iff the half-open interval-overlap test
`existing.start < requested.end AND requested.start < existing.end` finds no
overlap with any *non-cancelled* booking for that (court, date) — i.e. the
comparison set must include `'expired'` bookings, not exclude them.  In
particular adjacency (request start = existing end, or request end = existing
start) is accepted by both formulations. -/
theorem c3_slot_iff_interval {bs : List Booking} {c : String} {d : Nat} {s e : HM}
    (hs6 : 6 ≤ s.hour) (hse : s.hour < e.hour) (he22 : e.hour ≤ 22)
    (hsm : s.minute = 0) (hem : e.minute = 0)
    (hbs : ∀ b ∈ bs, AlignedBk b ∧ b.startTime.hour < b.endTime.hour) :
    slotCheckAccepts bs c d s e = true ↔ overlapFreeNonCancelled bs c d s e := by
  constructor
  · intro hacc b hb hc hd hstat hcov
    obtain ⟨⟨hb1, hb2⟩, hne⟩ := hbs b hb
    obtain ⟨h1, h2⟩ := hcov
    rw [hmLt_hour hb1 hem] at h1
    rw [hmLt_hour hsm hb2] at h2
    have hmem := slotCheckAccepts_covers hacc
      (h := max s.hour b.startTime.hour) (by omega) (by omega)
    rw [mem_getAvailableSlots] at hmem
    exact hmem.2 b hb hc hd hstat
      ⟨(hmLe_slot hb1).2 (by omega), (slot_hmLt hb2).2 (by omega)⟩
  · intro hfree
    unfold slotCheckAccepts
    rw [List.all_eq_true]
    intro t ht
    rw [mem_requestedSlots] at ht
    obtain ⟨h, hsh, hhe, rfl⟩ := ht
    have hmem : (⟨h, 0⟩ : HM) ∈ getAvailableSlots bs c d := by
      rw [mem_getAvailableSlots]
      refine ⟨⟨h, by omega, by omega, rfl⟩, ?_⟩
      intro b hb hc hd hstat hcov
      obtain ⟨⟨hb1, hb2⟩, hne⟩ := hbs b hb
      obtain ⟨h1, h2⟩ := hcov
      rw [hmLe_slot hb1] at h1
      rw [slot_hmLt hb2] at h2
      exact hfree b hb hc hd hstat
        ⟨(hmLt_hour hb1 hem).2 (by omega), (hmLt_hour hsm hb2).2 (by omega)⟩
    simpa [List.contains] using hmem

/-- C3, witness: against one confirmed 10:00–12:00 booking, the adjacent
request 12:00–13:00 — hour-aligned, within hours — is governed by the proved
equivalence. -/
theorem c3_slot_iff_interval_witness :
    slotCheckAccepts
      [(⟨"b1", "u1", "c1", 100, ⟨10, 0⟩, ⟨12, 0⟩, "confirmed", 1000, none, 0, none⟩ : Booking)]
      "c1" 100 ⟨12, 0⟩ ⟨13, 0⟩ = true ↔
    overlapFreeNonCancelled
      [(⟨"b1", "u1", "c1", 100, ⟨10, 0⟩, ⟨12, 0⟩, "confirmed", 1000, none, 0, none⟩ : Booking)]
      "c1" 100 ⟨12, 0⟩ ⟨13, 0⟩ :=
  c3_slot_iff_interval (by decide) (by decide) (by decide) (by decide) (by decide)
    (by decide)

/-! Section: Claim C4 -/

/-- C4, counterexample.  server.js performs no time-range validation at all:
the request 23:00–23:30 (outside operating hours and not hour-aligned) is
*accepted* — the requested-slot loop is empty, `every` on an empty list is
true — and a booking record is added. -/
theorem c4_counterexample :
    (Server.createBooking
      (⟨[], [⟨"C1", "Main Court", "Building A", 500, 10, true⟩], [], []⟩ : Store)
      "U1" "C1" 100 ⟨23, 0⟩ ⟨23, 30⟩ 50).isOk = true ∧
    (Server.createBooking
      (⟨[], [⟨"C1", "Main Court", "Building A", 500, 10, true⟩], [], []⟩ : Store)
      "U1" "C1" 100 ⟨23, 0⟩ ⟨23, 30⟩ 50).getOk.map (fun p => p.1.bookings.length) =
      some 1 := by
  refine ⟨by decide, by decide⟩

/-- C4 (amended): only the app.js variant validates the time range, and it
checks only the hour components: when the date is not past and the court
exists and is active, a request with `startHour >= endHour`, `startHour < 6`
or `endHour > 22` fails with the 400 validation error and no booking is added;
this covers 23:00–23:30.  The server.js variant performs no such validation
(see the counterexample), and minute components are never inspected in either
variant. -/
theorem c4_appv1_rejects_invalid_hours (st : Store) (actorId courtId : String)
    (date : Nat) (s e : HM) (now today : Nat) (court : Court)
    (hdate : ¬date < today)
    (hcourt : st.courts.find? (fun c => c.id == courtId && c.isActive) = some court)
    (hbad : e.hour ≤ s.hour ∨ s.hour < 6 ∨ 22 < e.hour) :
    AppV1.createBooking st actorId courtId date s e now today =
      .err ⟨400, "Invalid time range. Courts open 6 AM - 10 PM"⟩ := by
  unfold AppV1.createBooking
  rw [if_neg hdate]
  simp only [hcourt]
  have hcond : (s.hour ≥ e.hour || s.hour < 6 || e.hour > 22) = true := by
    simp only [Bool.or_eq_true, decide_eq_true_eq]
    omega
  rw [if_pos hcond]

/-- C4, witness: the app.js variant rejects the 23:00–23:30 request of
Scenario E with the validation error. -/
theorem c4_appv1_rejects_invalid_hours_witness :
    AppV1.createBooking
      (⟨[], [⟨"C1", "Main Court", "Building A", 500, 10, true⟩], [], []⟩ : Store)
      "U1" "C1" 100 ⟨23, 0⟩ ⟨23, 30⟩ 50 100 =
      .err ⟨400, "Invalid time range. Courts open 6 AM - 10 PM"⟩ :=
  c4_appv1_rejects_invalid_hours _ _ _ _ _ _ _ _
    ⟨"C1", "Main Court", "Building A", 500, 10, true⟩
    (by decide) (by decide) (by decide)

/-! Section: Claim C7 -/

/-- C7, counterexample.  server.js never consults the clock at booking
creation: with the current calendar day being day 6, a booking for the
strictly earlier day 5 is accepted and a record is added. -/
theorem c7_counterexample :
    (5 : Nat) < 6 ∧
    (Server.createBooking
      (⟨[], [⟨"C1", "Main Court", "Building A", 500, 10, true⟩], [], []⟩ : Store)
      "U1" "C1" 5 ⟨10, 0⟩ ⟨11, 0⟩ 50).isOk = true ∧
    (Server.createBooking
      (⟨[], [⟨"C1", "Main Court", "Building A", 500, 10, true⟩], [], []⟩ : Store)
      "U1" "C1" 5 ⟨10, 0⟩ ⟨11, 0⟩ 50).getOk.map (fun p => p.1.bookings.length) =
      some 1 := by
  refine ⟨by decide, by decide, by decide⟩

/-- C7 (amended): the app.js variant rejects every creation request whose date
is strictly before the current calendar day with the 400 past-date error (and
adds no booking); the server.js variant performs no date validation at all,
as the counterexample shows. -/
theorem c7_appv1_rejects_past_date (st : Store) (actorId courtId : String)
    (date : Nat) (s e : HM) (now today : Nat) (hpast : date < today) :
    AppV1.createBooking st actorId courtId date s e now today =
      .err ⟨400, "Cannot book for past dates"⟩ := by
  unfold AppV1.createBooking
  rw [if_pos hpast]

/-- C7, witness: day 5 is before current day 6, and the app.js variant rejects
the request. -/
theorem c7_appv1_rejects_past_date_witness :
    AppV1.createBooking
      (⟨[], [⟨"C1", "Main Court", "Building A", 500, 10, true⟩], [], []⟩ : Store)
      "U1" "C1" 5 ⟨10, 0⟩ ⟨11, 0⟩ 50 6 = .err ⟨400, "Cannot book for past dates"⟩ :=
  c7_appv1_rejects_past_date _ _ _ _ _ _ _ _ (by decide)

/-! Section: Claim C6 -/

/-- C6: at booking creation, in both the server.js and the app.js variant, the
stored total price is exactly `(endHour - startHour) * court.pricePerHour`,
in exact integer arithmetic. -/
theorem c6_price_formula (st : Store) (actorId courtId : String) (date : Nat)
    (s e : HM) (now today : Nat) (court : Court)
    (hs : s.minute = 0) (he : e.minute = 0) (hlt : s.hour < e.hour)
    (h6 : 6 ≤ s.hour) (h22 : e.hour ≤ 22) (hdate : ¬date < today)
    (hcourt1 : st.courts.find? (fun c => c.id == courtId) = some court)
    (hcourt2 : st.courts.find? (fun c => c.id == courtId && c.isActive) = some court)
    (hacc : slotCheckAccepts st.bookings courtId date s e = true) :
    (Server.createBooking st actorId courtId date s e now).getOk.map
        (fun p => p.2.totalPrice) =
      some (((e.hour : Int) - (s.hour : Int)) * court.pricePerHour) ∧
    (AppV1.createBooking st actorId courtId date s e now today).getOk.map
        (fun p => p.2.totalPrice) =
      some (((e.hour : Int) - (s.hour : Int)) * court.pricePerHour) := by
  constructor
  · unfold Server.createBooking
    simp only [hcourt1]
    rw [if_pos hacc]
    rfl
  · unfold AppV1.createBooking
    rw [if_neg hdate]
    simp only [hcourt2]
    have hcond : (s.hour ≥ e.hour || s.hour < 6 || e.hour > 22) = false := by
      simp only [Bool.or_eq_false_iff, decide_eq_false_iff_not]
      omega
    rw [hcond]
    rw [if_neg (by simp : ¬(false = true))]
    rw [if_pos hacc]
    rfl

/-- C6, witness: Scenario A — a 10:00–12:00 booking on the 500/hour court is
priced 1000 in both variants. -/
theorem c6_price_formula_witness :
    (Server.createBooking
      (⟨[], [⟨"C1", "Main Court", "Building A", 500, 10, true⟩], [], []⟩ : Store)
      "U1" "C1" 100 ⟨10, 0⟩ ⟨12, 0⟩ 50).getOk.map (fun p => p.2.totalPrice) =
      some 1000 ∧
    (AppV1.createBooking
      (⟨[], [⟨"C1", "Main Court", "Building A", 500, 10, true⟩], [], []⟩ : Store)
      "U1" "C1" 100 ⟨10, 0⟩ ⟨12, 0⟩ 50 100).getOk.map (fun p => p.2.totalPrice) =
      some 1000 := by
  have h := c6_price_formula
    (⟨[], [⟨"C1", "Main Court", "Building A", 500, 10, true⟩], [], []⟩ : Store)
    "U1" "C1" 100 ⟨10, 0⟩ ⟨12, 0⟩ 50 100
    ⟨"C1", "Main Court", "Building A", 500, 10, true⟩
    (by decide) (by decide) (by decide) (by decide) (by decide) (by decide)
    (by decide) (by decide) (by decide)
  exact ⟨h.1.trans (by decide), h.2.trans (by decide)⟩

/-! Section: Claim C5 -/

/-- A booking with its `updatedAt` timestamp erased: used to state that a
cancel changes nothing else. -/
def stripUpdated (b : Booking) : Booking := { b with updatedAt := none }

/-- If the first booking with the given id is already cancelled, re-setting its
status to `'cancelled'` changes nothing except `updatedAt`. -/
theorem strip_setStatusFirst_cancelled {bs : List Booking} {bookingId : String}
    {now : Nat} {b : Booking}
    (hfind : bs.find? (fun x => x.id == bookingId) = some b)
    (hstat : b.status = "cancelled") :
    (setStatusFirst bs bookingId "cancelled" now).map stripUpdated =
      bs.map stripUpdated := by
  induction bs with
  | nil => simp at hfind
  | cons x rest ih =>
    by_cases hx : (x.id == bookingId) = true
    · simp only [List.find?_cons, hx] at hfind
      have hxb : x = b := by simpa using hfind
      have hxs : x.status = "cancelled" := by rw [hxb]; exact hstat
      unfold setStatusFirst
      rw [if_pos hx]
      simp only [List.map_cons]
      congr 1
      unfold stripUpdated
      cases x
      simp_all
    · rw [Bool.not_eq_true] at hx
      simp only [List.find?_cons, hx] at hfind
      unfold setStatusFirst
      rw [if_neg (by simp [hx])]
      simp only [List.map_cons]
      rw [ih hfind]

/-- C5, counterexample.  Cancelling an already-cancelled booking does not fail:
both the app.js DELETE handler and the server.js PATCH-based cancel return
success on a booking whose status is already `'cancelled'` (neither variant
inspects the current status; no `InvalidStateError` exists anywhere in the
code), and the booking's `updatedAt` field is overwritten. -/
theorem c5_counterexample :
    (AppV1.cancelBooking
      (⟨[⟨"U1", "Rahul", "rahul@example.com", none, "pw", "user", none, none, 0, none⟩],
        [], [⟨"B1", "U1", "C1", 100, ⟨10, 0⟩, ⟨11, 0⟩, "cancelled", 500, none, 0, none⟩],
        []⟩ : Store)
      ⟨"U1", "Rahul", "rahul@example.com", none, "pw", "user", none, none, 0, none⟩
      "B1" 7).isOk = true ∧
    (AppV1.cancelBooking
      (⟨[⟨"U1", "Rahul", "rahul@example.com", none, "pw", "user", none, none, 0, none⟩],
        [], [⟨"B1", "U1", "C1", 100, ⟨10, 0⟩, ⟨11, 0⟩, "cancelled", 500, none, 0, none⟩],
        []⟩ : Store)
      ⟨"U1", "Rahul", "rahul@example.com", none, "pw", "user", none, none, 0, none⟩
      "B1" 7).getOk.map (fun s => s.bookings.map Booking.updatedAt) =
      some [some 7] ∧
    (Server.patchBooking
      (⟨[⟨"U1", "Rahul", "rahul@example.com", none, "pw", "user", none, none, 0, none⟩],
        [], [⟨"B1", "U1", "C1", 100, ⟨10, 0⟩, ⟨11, 0⟩, "cancelled", 500, none, 0, none⟩],
        []⟩ : Store)
      ⟨"U1", "Rahul", "rahul@example.com", none, "pw", "user", none, none, 0, none⟩
      "B1" "cancelled" 7).isOk = true := by
  refine ⟨by decide, by decide, by decide⟩

/-- C5 (amended): invoking the cancel operation on an already-cancelled
booking *silently succeeds* in the code: the app.js DELETE handler re-sets the
status to `'cancelled'` and refreshes `updatedAt`, leaving every other field
of every booking — and the users, courts and sessions — unchanged; no
`InvalidStateError` is signalled. -/
theorem c5_cancel_cancelled_silently_succeeds (st : Store) (actor : User)
    (bookingId : String) (now : Nat) (b : Booking)
    (hfind : st.bookings.find? (fun x => x.id == bookingId) = some b)
    (hstat : b.status = "cancelled")
    (hauth : b.userId = actor.id ∨ actor.role = "admin") :
    (AppV1.cancelBooking st actor bookingId now).isOk = true ∧
    (AppV1.cancelBooking st actor bookingId now).getOk.map
        (fun s => (s.bookings.map stripUpdated, s.users, s.courts, s.sessions)) =
      some (st.bookings.map stripUpdated, st.users, st.courts, st.sessions) := by
  have hcond : (b.userId != actor.id && actor.role != "admin") = false := by
    rcases hauth with h | h <;> simp [h]
  have hres : AppV1.cancelBooking st actor bookingId now =
      .ok { st with bookings := setStatusFirst st.bookings bookingId "cancelled" now } := by
    unfold AppV1.cancelBooking
    simp only [hfind]
    rw [hcond]
    simp
  rw [hres]
  refine ⟨rfl, ?_⟩
  have hstrip := @strip_setStatusFirst_cancelled st.bookings bookingId now b hfind hstat
  simp [RouteResult.getOk, hstrip]

/-- C5, witness: cancelling the already-cancelled booking `B1` succeeds and
changes only `updatedAt`. -/
theorem c5_cancel_cancelled_witness :
    (AppV1.cancelBooking
      (⟨[⟨"U1", "Rahul", "rahul@example.com", none, "pw", "user", none, none, 0, none⟩],
        [], [⟨"B2", "U1", "C1", 100, ⟨14, 0⟩, ⟨15, 0⟩, "cancelled", 500, none, 0, none⟩],
        []⟩ : Store)
      ⟨"U1", "Rahul", "rahul@example.com", none, "pw", "user", none, none, 0, none⟩
      "B2" 9).isOk = true ∧
    (AppV1.cancelBooking
      (⟨[⟨"U1", "Rahul", "rahul@example.com", none, "pw", "user", none, none, 0, none⟩],
        [], [⟨"B2", "U1", "C1", 100, ⟨14, 0⟩, ⟨15, 0⟩, "cancelled", 500, none, 0, none⟩],
        []⟩ : Store)
      ⟨"U1", "Rahul", "rahul@example.com", none, "pw", "user", none, none, 0, none⟩
      "B2" 9).getOk.map
        (fun s => (s.bookings.map stripUpdated, s.users, s.courts, s.sessions)) =
      some ([stripUpdated ⟨"B2", "U1", "C1", 100, ⟨14, 0⟩, ⟨15, 0⟩, "cancelled", 500, none, 0, none⟩],
        [⟨"U1", "Rahul", "rahul@example.com", none, "pw", "user", none, none, 0, none⟩],
        [], []) :=
  c5_cancel_cancelled_silently_succeeds _ _ _ _
    ⟨"B2", "U1", "C1", 100, ⟨14, 0⟩, ⟨15, 0⟩, "cancelled", 500, none, 0, none⟩
    (by decide) (by decide) (by decide)

/-! Section: Claim C8 -/

/-- C8, counterexample.  The server.js availability route performs no
court-existence check: for a court id that exists nowhere in an empty store it
returns the full 17-slot list with success instead of a NotFoundError. -/
theorem c8_counterexample :
    Server.availabilityRoute (⟨[], [], [], []⟩ : Store) "ghost" 100 =
      .ok slotsAll ∧
    (Server.availabilityRoute (⟨[], [], [], []⟩ : Store) "ghost" 100).isOk = true := by
  refine ⟨by decide, by decide⟩

/-- C8 (amended): in the app.js variant (the server.js route has no existence
check, as the counterexample shows), requesting availability for an unknown
court id fails with the 404 not-found error, and for an existing court whose
slots are all covered the route succeeds with the empty list rather than an
error. -/
theorem c8_availability_errors (st : Store) (courtId : String) (date today : Nat)
    (hdate : ¬date < today) :
    (st.courts.find? (fun c => c.id == courtId) = none →
      AppV1.availabilityRoute st courtId date today = .err ⟨404, "Court not found"⟩) ∧
    (∀ court, st.courts.find? (fun c => c.id == courtId) = some court →
      (∀ t ∈ slotsAll, ∃ b ∈ st.bookings, b.courtId = courtId ∧ b.date = date ∧
        b.status ≠ "cancelled" ∧ hmLe b.startTime t = true ∧ hmLt t b.endTime = true) →
      AppV1.availabilityRoute st courtId date today = .ok []) := by
  constructor
  · intro hnone
    unfold AppV1.availabilityRoute
    rw [if_neg hdate]
    simp only [hnone]
  · intro court hsome hcov
    unfold AppV1.availabilityRoute
    rw [if_neg hdate]
    simp only [hsome]
    have : getAvailableSlots st.bookings courtId date = [] := by
      rw [List.eq_nil_iff_forall_not_mem]
      intro t ht
      rw [mem_getAvailableSlots] at ht
      obtain ⟨hbase, hfree⟩ := ht
      have htall : t ∈ slotsAll := mem_slotsAll.2 hbase
      obtain ⟨b, hb, hc, hd, hs, hle, hlt⟩ := hcov t htall
      exact hfree b hb hc hd hs ⟨hle, hlt⟩
    rw [this]

/-- C8, witness: the unknown court id `"ghost"` yields 404 in the app.js
variant, and a court whose whole day is covered by one confirmed 06:00–23:00
booking yields the empty slot list with success. -/
theorem c8_availability_errors_witness :
    AppV1.availabilityRoute (⟨[], [], [], []⟩ : Store) "ghost" 100 50 =
      .err ⟨404, "Court not found"⟩ ∧
    AppV1.availabilityRoute
      (⟨[], [⟨"C1", "Main Court", "Building A", 500, 10, true⟩],
        [⟨"B1", "U1", "C1", 100, ⟨6, 0⟩, ⟨23, 0⟩, "confirmed", 8500, none, 0, none⟩],
        []⟩ : Store) "C1" 100 50 = .ok [] :=
  ⟨(c8_availability_errors (⟨[], [], [], []⟩ : Store) "ghost" 100 50
      (by decide)).1 (by decide),
   (c8_availability_errors
      (⟨[], [⟨"C1", "Main Court", "Building A", 500, 10, true⟩],
        [⟨"B1", "U1", "C1", 100, ⟨6, 0⟩, ⟨23, 0⟩, "confirmed", 8500, none, 0, none⟩],
        []⟩ : Store) "C1" 100 50 (by decide)).2
     ⟨"C1", "Main Court", "Building A", 500, 10, true⟩ (by decide) (by decide)⟩

/-! Section: Claim C9 -/

/-- With pairwise-distinct user ids, removing the first user with a given id
(`findIndex` + `splice`) removes exactly the users with that id. -/
theorem removeFirstUser_eq_filter {us : List User} {targetId : String}
    (h : (us.map User.id).Nodup) :
    Server.removeFirstUser us targetId = us.filter (fun u => u.id != targetId) := by
  induction us with
  | nil => rfl
  | cons u rest ih =>
    rw [List.map_cons, List.nodup_cons] at h
    obtain ⟨hni, hnd⟩ := h
    unfold Server.removeFirstUser
    by_cases hu : (u.id == targetId) = true
    · rw [if_pos hu]
      have hueq : u.id = targetId := by simpa using hu
      rw [List.filter_cons_of_neg (by simp [hueq])]
      symm
      rw [List.filter_eq_self]
      intro x hx
      simp only [bne_iff_ne, ne_eq]
      intro hxeq
      exact hni (List.mem_map.2 ⟨x, hx, by rw [hxeq, hueq]⟩)
    · rw [if_neg hu]
      have hune : u.id ≠ targetId := by simpa using hu
      rw [List.filter_cons_of_pos (by simp [hune])]
      rw [ih hnd]

/-- C9: admin-initiated user deletion.  If the target user (looked up by id,
with ids pairwise distinct) has role `'admin'`, the request is refused with a
400 error, leaving the store unchanged (the error result carries no state
change); otherwise exactly the target's user record and all bookings whose
`userId` is the target's id are removed, while courts, sessions, every other
user record and every other user's bookings are untouched. -/
theorem c9_delete_user_frame (st : Store) (actor target : User) (targetId : String)
    (hadmin : actor.role = "admin")
    (hfind : st.users.find? (fun u => u.id == targetId) = some target)
    (hnodup : (st.users.map User.id).Nodup) :
    (target.role = "admin" →
      Server.deleteUser st actor targetId = .err ⟨400, "Cannot delete admin user"⟩) ∧
    (target.role ≠ "admin" →
      Server.deleteUser st actor targetId =
        .ok ⟨st.users.filter (fun u => u.id != targetId), st.courts,
             st.bookings.filter (fun b => b.userId != targetId), st.sessions⟩) := by
  have hrole : (actor.role != "admin") = false := by simp [hadmin]
  constructor
  · intro htarget
    unfold Server.deleteUser
    rw [hrole]
    simp only [Bool.false_eq_true, if_false, hfind]
    rw [if_pos (by simp [htarget])]
  · intro htarget
    unfold Server.deleteUser
    rw [hrole]
    simp only [Bool.false_eq_true, if_false, hfind]
    rw [if_neg (by simp [htarget])]
    rw [removeFirstUser_eq_filter hnodup]

/-- C9, witness: deleting the ordinary user `u2` removes that record and their
booking while the admin, the court, the other user's booking and the session
survive; deleting the admin is refused. -/
theorem c9_delete_user_frame_witness :
    Server.deleteUser
      (⟨[⟨"a1", "Admin", "a@x", none, "pw", "admin", none, none, 0, none⟩,
         ⟨"u2", "Priya", "p@x", none, "pw", "user", none, none, 0, none⟩],
        [⟨"C1", "Main Court", "Building A", 500, 10, true⟩],
        [⟨"B1", "u2", "C1", 100, ⟨10, 0⟩, ⟨11, 0⟩, "confirmed", 500, none, 0, none⟩,
         ⟨"B2", "a1", "C1", 100, ⟨12, 0⟩, ⟨13, 0⟩, "pending", 500, none, 0, none⟩],
        [⟨"tok", "u2", 999⟩]⟩ : Store)
      ⟨"a1", "Admin", "a@x", none, "pw", "admin", none, none, 0, none⟩ "u2" =
      .ok ⟨[⟨"a1", "Admin", "a@x", none, "pw", "admin", none, none, 0, none⟩],
           [⟨"C1", "Main Court", "Building A", 500, 10, true⟩],
           [⟨"B2", "a1", "C1", 100, ⟨12, 0⟩, ⟨13, 0⟩, "pending", 500, none, 0, none⟩],
           [⟨"tok", "u2", 999⟩]⟩ := by
  have h := (c9_delete_user_frame
    (⟨[⟨"a1", "Admin", "a@x", none, "pw", "admin", none, none, 0, none⟩,
       ⟨"u2", "Priya", "p@x", none, "pw", "user", none, none, 0, none⟩],
      [⟨"C1", "Main Court", "Building A", 500, 10, true⟩],
      [⟨"B1", "u2", "C1", 100, ⟨10, 0⟩, ⟨11, 0⟩, "confirmed", 500, none, 0, none⟩,
       ⟨"B2", "a1", "C1", 100, ⟨12, 0⟩, ⟨13, 0⟩, "pending", 500, none, 0, none⟩],
      [⟨"tok", "u2", 999⟩]⟩ : Store)
    ⟨"a1", "Admin", "a@x", none, "pw", "admin", none, none, 0, none⟩
    ⟨"u2", "Priya", "p@x", none, "pw", "user", none, none, 0, none⟩ "u2"
    (by decide) (by decide) (by decide)).2 (by decide)
  exact h.trans (by decide)

/-! Section: Claim C10 -/

/-- C10: public registration.  With a duplicate email, both variants fail with
the 400 error and add no user; otherwise the created record has role `'user'`
— regardless of the `role` value supplied in the request body, which neither
handler reads — and exactly one user is appended. -/
theorem c10_register_role (st : Store) (req : RegisterReq) (now : Nat) :
    ((∃ u ∈ st.users, u.email = req.email) →
      Server.register st req now = .err ⟨400, "Email already registered"⟩ ∧
      AppV1.register st req now = .err ⟨400, "Email already registered"⟩) ∧
    ((∀ u ∈ st.users, u.email ≠ req.email) →
      (Server.register st req now).getOk.map
          (fun p => (p.2.role, p.1.users.map User.role)) =
        some ("user", st.users.map User.role ++ ["user"]) ∧
      (AppV1.register st req now).getOk.map
          (fun p => (p.2.role, p.1.users.map User.role)) =
        some ("user", st.users.map User.role ++ ["user"])) := by
  constructor
  · rintro ⟨u, hu, hemail⟩
    have hany : st.users.any (fun x => x.email == req.email) = true := by
      rw [List.any_eq_true]
      exact ⟨u, hu, by simp [hemail]⟩
    constructor
    · unfold Server.register
      rw [if_pos hany]
    · unfold AppV1.register
      rw [if_pos hany]
  · intro hall
    have hany : st.users.any (fun x => x.email == req.email) = false := by
      rw [List.any_eq_false]
      intro x hx
      simp [hall x hx]
    constructor
    · unfold Server.register
      rw [hany]
      simp [RouteResult.getOk]
    · unfold AppV1.register
      rw [hany]
      simp [RouteResult.getOk]

/-- C10, witness: registering with a fresh email and `role: "admin"` in the
request body still creates a `'user'`-role record, and registering with an
email already taken fails. -/
theorem c10_register_role_witness :
    (Server.register (⟨[], [], [], []⟩ : Store)
      ⟨"Eve", "eve@example.com", none, "pw", "admin"⟩ 50).getOk.map
        (fun p => (p.2.role, p.1.users.map User.role)) = some ("user", ["user"]) ∧
    Server.register
      (⟨[⟨"u1", "Rahul", "rahul@example.com", none, "pw", "user", none, none, 0, none⟩],
        [], [], []⟩ : Store)
      ⟨"Eve", "rahul@example.com", none, "pw", "admin"⟩ 50 =
      .err ⟨400, "Email already registered"⟩ :=
  ⟨((c10_register_role (⟨[], [], [], []⟩ : Store)
      ⟨"Eve", "eve@example.com", none, "pw", "admin"⟩ 50).2 (by decide)).1,
   ((c10_register_role
      (⟨[⟨"u1", "Rahul", "rahul@example.com", none, "pw", "user", none, none, 0, none⟩],
        [], [], []⟩ : Store)
      ⟨"Eve", "rahul@example.com", none, "pw", "admin"⟩ 50).1
     ⟨⟨"u1", "Rahul", "rahul@example.com", none, "pw", "user", none, none, 0, none⟩,
      by decide, by decide⟩).1⟩

end Basketball
